import Mathlib

/-!
Shallow embedding of `src/db/migrations/versions/001_initial_schema.py`
(an Alembic migration script) and proofs about it.

Documents are modelled as `List Char`; the Python operations
`str.split(';')`, `str.strip()` and path manipulation via
`os.path.dirname` are embedded as executable Lean functions.  The
database connection is abstract: an execution function
`List Char → DB → Except E DB`; the SQL engine's behaviour for the
teardown statements of `downgrade()` is modelled from the spec, since
the engine itself is not part of the repository fragment.
-/

/-- Whitespace recognised by Python's `str.strip()` restricted to the
ASCII / Latin-1 range (further Unicode space code points are not
modelled; the schema documents at issue are ASCII SQL). -/
def pyIsSpace (c : Char) : Bool :=
  c = ' ' || c = '\t' || c = '\n' || c = '\r' || c = '\x0b' || c = '\x0c' ||
  c = '\x1c' || c = '\x1d' || c = '\x1e' || c = '\x1f' || c = '\x85' || c = '\xa0'

/-- Python `str.strip()`: remove leading and trailing whitespace. -/
def pyStrip (l : List Char) : List Char :=
  ((l.dropWhile pyIsSpace).reverse.dropWhile pyIsSpace).reverse

/-- Cons a character onto the first fragment of a split result
(auxiliary for `splitSemi`). -/
def consHead (c : Char) : List (List Char) → List (List Char)
  | [] => [[c]]
  | f :: fs => (c :: f) :: fs

/-- Python `str.split(';')`: split on every occurrence of `;`,
keeping empty fragments; the result is never the empty list
(`"".split(';') == ['']`). -/
def splitSemi : List Char → List (List Char)
  | [] => [[]]
  | c :: cs => if c = ';' then [] :: splitSemi cs else consHead c (splitSemi cs)

/-- Statement derivation of `upgrade()` (line 39 of the source):
`[stmt.strip() for stmt in schema_sql.split(';') if stmt.strip()]`. -/
def deriveStatements (text : List Char) : List (List Char) :=
  ((splitSemi text).filter (fun s => !(pyStrip s).isEmpty)).map pyStrip

/-- Join fragments with `;` separators (the inverse construction used
to describe schema documents; spec-side auxiliary). -/
def joinSemi : List (List Char) → List Char
  | [] => []
  | [f] => f
  | f :: g :: fs => f ++ ';' :: joinSemi (g :: fs)

/-- Re-attach a statement at the front of an execution trace. -/
def consTrace {σ DB E : Type} (s : σ) :
    DB × List σ × Option E → DB × List σ × Option E
  | (db, tr, err) => (db, s :: tr, err)

/-- The execution loop of `upgrade()` (lines 41-43 of the source):
`for statement in statements: if statement: conn.execute(sa.text(statement))`.
Returns the final connection state, the list of statements sent to the
connection (the failing one included), and the propagated SQL error, if
any.  The inner `if statement:` guard (Python truthiness = non-empty
string) is the `if s.isEmpty` test. -/
def execLoop {DB E : Type} (exec : List Char → DB → Except E DB) :
    List (List Char) → DB → DB × List (List Char) × Option E
  | [], db => (db, [], none)
  | s :: rest, db =>
    if s.isEmpty then execLoop exec rest db
    else
      match exec s db with
      | .ok db' => consTrace s (execLoop exec rest db')
      | .error e => (db, [s], some e)

/-- Variant of `execLoop` without the inner non-emptiness guard
(spec-side auxiliary, used to state that the guard is never false). -/
def execLoopNoGuard {DB E : Type} (exec : List Char → DB → Except E DB) :
    List (List Char) → DB → DB × List (List Char) × Option E
  | [], db => (db, [], none)
  | s :: rest, db =>
    match exec s db with
    | .ok db' => consTrace s (execLoopNoGuard exec rest db')
    | .error e => (db, [s], some e)

/-- All-succeed execution: `some` of the final state if every statement
executes without error, `none` otherwise (spec-side auxiliary used to
phrase the stop-at-first-failure property). -/
def execAll {DB E : Type} (exec : List Char → DB → Except E DB) :
    List (List Char) → DB → Option DB
  | [], db => some db
  | s :: rest, db =>
    match exec s db with
    | .ok db' => execAll exec rest db'
    | .error _ => none

/-- `os.path.dirname` on a path represented as its list of segments. -/
def pyDirname (p : List String) : List String := p.dropLast

/-- The schema file location computed by `upgrade()` (lines 25-28 of the
source): `os.path.join(dirname(dirname(dirname(__file__))), 'schema.sql')`.
It is a function of the migration file's own location `loc` alone. -/
def schemaPath (loc : List String) : List String :=
  pyDirname (pyDirname (pyDirname loc)) ++ ["schema.sql"]

/-- The directory named `migrations` containing the `versions` directory
in which the migration file lives: two `dirname` applications. -/
def migrationsDir (loc : List String) : List String :=
  pyDirname (pyDirname loc)

/-- Modelled from the spec: the location asserted by the sentence
"`schema.sql`, located at a fixed path two directories above the
migrations directory" — go up two directories from the `migrations`
directory, then `schema.sql`.  Stated for comparison with `schemaPath`,
which is translated from the source. -/
def specSchemaPathTwoAboveMigrations (loc : List String) : List String :=
  pyDirname (pyDirname (migrationsDir loc)) ++ ["schema.sql"]

/-- `upgrade()` end to end: compute the schema path from the file
location, open the file through the abstract file system `fs`
(`.error ()` models the propagated I/O error when the open fails),
derive the statements, and run the execution loop.  A SQL error is the
`Option E` component of the successful-open result. -/
def upgradeRun {DB E : Type} (fs : List String → Option (List Char))
    (loc : List String) (exec : List Char → DB → Except E DB) (db : DB) :
    Except Unit (DB × List (List Char) × Option E) :=
  match fs (schemaPath loc) with
  | none => .error ()
  | some text => .ok (execLoop exec (deriveStatements text) db)

/-- Statements actually sent to the connection by a run of `upgrade()`
(none when the schema file could not be opened). -/
def sentStatements {DB E : Type} :
    Except Unit (DB × List (List Char) × Option E) → List (List Char)
  | .error _ => []
  | .ok r => r.2.1

/-- Revision identifier of the migration (line 16 of the source). -/
def revision : String := "001"

/-- Predecessor revision (line 17 of the source): `None`. -/
def down_revision : Option String := none

/-- Branch labels (line 18 of the source): `None`. -/
def branch_labels : Option (Sum String (List String)) := none

/-- Dependency identifiers (line 19 of the source): `None`. -/
def depends_on : Option (Sum String (List String)) := none

/-- The four kinds of teardown statement issued by `downgrade()`:
`DROP VIEW IF EXISTS … CASCADE`, `op.drop_table` (plain `DROP TABLE`,
no `IF EXISTS`), `DROP FUNCTION IF EXISTS … CASCADE`,
`DROP EXTENSION IF EXISTS … CASCADE`. -/
inductive TeardownStmt : Type
  | dropViewIfExists (name : String)
  | dropTable (name : String)
  | dropFunctionIfExists (name : String)
  | dropExtensionIfExists (name : String)
deriving DecidableEq

/-- Whether a teardown statement carries an `IF EXISTS` guard; only the
plain table drops do not. -/
def isGuarded : TeardownStmt → Bool
  | .dropTable _ => false
  | _ => true

/-- The object name a teardown statement refers to. -/
def nameOf : TeardownStmt → String
  | .dropViewIfExists n => n
  | .dropTable n => n
  | .dropFunctionIfExists n => n
  | .dropExtensionIfExists n => n

/-- The fixed statement sequence of `downgrade()` (lines 46-69 of the
source), in source order: three guarded view drops, ten plain table
drops (children before parents), the guarded function drop, the guarded
extension drop. -/
def downgradeStmts : List TeardownStmt :=
  [.dropViewIfExists "v_hitl_queue",
   .dropViewIfExists "v_client_token_usage",
   .dropViewIfExists "v_active_processes",
   .dropTable "notifications",
   .dropTable "output_actions",
   .dropTable "audit_logs",
   .dropTable "documents",
   .dropTable "processes",
   .dropTable "configurations",
   .dropTable "prompts",
   .dropTable "process_types",
   .dropTable "users",
   .dropTable "clients",
   .dropFunctionIfExists "update_updated_at_column",
   .dropExtensionIfExists "uuid-ossp"]

/-- Modelled from the spec: the visible state of the database engine,
which is not part of the repository fragment — the catalog of tables,
views, functions and extensions, plus the dependency edges
`(dependent, dependee)` between objects (foreign keys, view
references). -/
structure PGState : Type where
  tables : List String
  views : List String
  funcs : List String
  exts : List String
  deps : List (String × String)
deriving DecidableEq

/-- Modelled from the spec: object `t` still has a live dependent —
some dependency edge points at `t` from an object that still exists in
the catalog. -/
def HasDependents (t : String) (st : PGState) : Prop :=
  ∃ e ∈ st.deps, e.2 = t ∧ (e.1 ∈ st.tables ∨ e.1 ∈ st.views)

instance (t : String) (st : PGState) : Decidable (HasDependents t st) := by
  unfold HasDependents
  infer_instance

/-- Modelled from the spec: the SQL engine's execution of one teardown
statement.  A `DROP … IF EXISTS` is tolerant of the object being
absent and always succeeds; a plain table drop fails if the table does
not exist or still has dependents.  (CASCADE's transitive dropping of
dependents is not exercised by the teardown sequence and is not
modelled.) -/
def execDrop : TeardownStmt → PGState → Except Unit PGState
  | .dropViewIfExists n, st =>
      .ok ⟨st.tables, st.views.erase n, st.funcs, st.exts, st.deps⟩
  | .dropTable n, st =>
      if n ∈ st.tables ∧ ¬ HasDependents n st then
        .ok ⟨st.tables.erase n, st.views, st.funcs, st.exts, st.deps⟩
      else .error ()
  | .dropFunctionIfExists n, st =>
      .ok ⟨st.tables, st.views, st.funcs.erase n, st.exts, st.deps⟩
  | .dropExtensionIfExists n, st =>
      .ok ⟨st.tables, st.views, st.funcs, st.exts.erase n, st.deps⟩

/-- Sequential execution of `downgrade()`'s statements: run each in
order, stop at the first failure, keep all prior effects.  Returns the
final state, the statements sent to the engine (the failing one
included), and the error, if any. -/
def runTeardown : List TeardownStmt → PGState → PGState × List TeardownStmt × Option Unit
  | [], st => (st, [], none)
  | s :: rest, st =>
    match execDrop s st with
    | .ok st' => consTrace s (runTeardown rest st')
    | .error _ => (st, [s], some ())

/-- All-succeed execution of a teardown sequence (spec-side auxiliary). -/
def runTeardownAll : List TeardownStmt → PGState → Option PGState
  | [], st => some st
  | s :: rest, st =>
    match execDrop s st with
    | .ok st' => runTeardownAll rest st'
    | .error _ => none

/-- The names touched by `downgrade()`, in drop order. -/
def dropOrder : List String :=
  ["v_hitl_queue", "v_client_token_usage", "v_active_processes",
   "notifications", "output_actions", "audit_logs", "documents",
   "processes", "configurations", "prompts", "process_types",
   "users", "clients", "update_updated_at_column", "uuid-ossp"]

/-- Position of a name in a list (length of the list when absent). -/
def posIn (l : List String) (a : String) : Nat :=
  match l with
  | [] => 0
  | b :: rest => if b = a then 0 else posIn rest a + 1

/-- A dependency graph respects the teardown order: every edge points
from an object dropped strictly earlier to one dropped strictly later
(children before parents, views before the tables they read). -/
def DepsOk (deps : List (String × String)) : Prop :=
  ∀ e ∈ deps, posIn dropOrder e.1 < posIn dropOrder e.2

instance (deps : List (String × String)) : Decidable (DepsOk deps) := by
  unfold DepsOk
  infer_instance

instance exceptDecEq {α β : Type} [DecidableEq α] [DecidableEq β] :
    DecidableEq (Except α β)
  | .error a, .error b =>
    if h : a = b then isTrue (by rw [h])
    else isFalse (fun hh => h (Except.error.inj hh))
  | .error _, .ok _ => isFalse (fun hh => Except.noConfusion hh)
  | .ok _, .error _ => isFalse (fun hh => Except.noConfusion hh)
  | .ok a, .ok b =>
    if h : a = b then isTrue (by rw [h])
    else isFalse (fun hh => h (Except.ok.inj hh))

/-- The ten tables named by the spec and dropped by `downgrade()`, in
drop order. -/
def createdTables : List String :=
  ["notifications", "output_actions", "audit_logs", "documents",
   "processes", "configurations", "prompts", "process_types",
   "users", "clients"]

/-- The three views named by the spec and dropped by `downgrade()`. -/
def createdViews : List String :=
  ["v_hitl_queue", "v_client_token_usage", "v_active_processes"]

/-- Modelled from the spec: the database state produced by a successful
`upgrade()` on a fresh database.  `schema.sql` itself is not part of the
repository fragment; per the spec it creates exactly the ten named
tables, the three named views, the trigger-support function and the
`uuid-ossp` extension, with some dependency graph `deps` over them. -/
def upgradeState (deps : List (String × String)) : PGState :=
  ⟨createdTables,
   createdViews,
   ["update_updated_at_column"],
   ["uuid-ossp"],
   deps⟩

/-- A concrete execution function used as a witness scenario: a
statement of length one fails, any other statement is appended to the
trace-state. -/
def execW (s : List Char) (db : List (List Char)) : Except Nat (List (List Char)) :=
  if s.length = 1 then .error 0 else .ok (db ++ [s])

/-- A concrete always-succeeding execution function (witness scenario):
append the executed statement to the trace-state. -/
def execOkW (s : List Char) (db : List (List Char)) : Except Unit (List (List Char)) :=
  .ok (db ++ [s])

/-- A concrete file system holding the two-statement schema document of
the end-to-end example (witness scenario). -/
def fsW : List String → Option (List Char) :=
  fun _ => some ("CREATE TABLE t (id int); CREATE TABLE u (id int);".toList)

/-! ## Lemmas about splitting and stripping -/

theorem consHead_ne_nil (c : Char) (L : List (List Char)) : consHead c L ≠ [] := by
  cases L <;> simp [consHead]

theorem splitSemi_ne_nil (l : List Char) : splitSemi l ≠ [] := by
  cases l with
  | nil => simp [splitSemi]
  | cons c cs =>
    by_cases hc : c = ';'
    · simp [splitSemi, hc]
    · simp only [splitSemi, if_neg hc]
      exact consHead_ne_nil c (splitSemi cs)

theorem not_semi_mem_of_mem_splitSemi :
    ∀ (l : List Char) (f : List Char), f ∈ splitSemi l → ';' ∉ f := by
  intro l
  induction l with
  | nil =>
    intro f hf
    simp [splitSemi] at hf
    simp [hf]
  | cons c cs ih =>
    intro f hf
    by_cases hc : c = ';'
    · rw [splitSemi, if_pos hc] at hf
      rcases List.mem_cons.mp hf with h | h
      · simp [h]
      · exact ih f h
    · rw [splitSemi, if_neg hc] at hf
      cases hsp : splitSemi cs with
      | nil => exact absurd hsp (splitSemi_ne_nil cs)
      | cons g gs =>
        rw [hsp, consHead] at hf
        rcases List.mem_cons.mp hf with h | h
        · subst h
          intro hmem
          rcases List.mem_cons.mp hmem with h' | h'
          · exact hc h'.symm
          · exact ih g (by rw [hsp]; exact List.mem_cons_self g gs) h'
        · exact ih f (by rw [hsp]; exact List.mem_cons_of_mem g h)

theorem splitSemi_no_semi (f : List Char) (h : ';' ∉ f) : splitSemi f = [f] := by
  induction f with
  | nil => rfl
  | cons c f' ih =>
    have hc : ¬ c = ';' := fun hcc => h (by simp [hcc])
    have h' : ';' ∉ f' := fun hm => h (List.mem_cons_of_mem c hm)
    rw [splitSemi, if_neg hc, ih h', consHead]

theorem splitSemi_append_semi (f r : List Char) (h : ';' ∉ f) :
    splitSemi (f ++ ';' :: r) = f :: splitSemi r := by
  induction f with
  | nil =>
    simp [splitSemi]
  | cons c f' ih =>
    have hc : ¬ c = ';' := fun hcc => h (by simp [hcc])
    have h' : ';' ∉ f' := fun hm => h (List.mem_cons_of_mem c hm)
    rw [List.cons_append, splitSemi, if_neg hc, ih h', consHead]

theorem splitSemi_joinSemi :
    ∀ fs : List (List Char), fs ≠ [] → (∀ f ∈ fs, ';' ∉ f) →
      splitSemi (joinSemi fs) = fs := by
  intro fs
  induction fs with
  | nil => intro h; exact absurd rfl h
  | cons f fs ih =>
    intro _ hsemi
    cases fs with
    | nil =>
      rw [joinSemi, splitSemi_no_semi f (hsemi f (List.mem_cons_self f []))]
    | cons g gs =>
      rw [joinSemi, splitSemi_append_semi f _ (hsemi f (List.mem_cons_self f (g :: gs)))]
      rw [ih (by simp) (fun x hx => hsemi x (List.mem_cons_of_mem f hx))]

theorem joinSemi_append_nil :
    ∀ fs : List (List Char), fs ≠ [] → joinSemi (fs ++ [[]]) = joinSemi fs ++ [';'] := by
  intro fs
  induction fs with
  | nil => intro h; exact absurd rfl h
  | cons f fs ih =>
    intro _
    cases fs with
    | nil => rfl
    | cons g gs =>
      have : joinSemi ((f :: g :: gs) ++ [[]]) = f ++ ';' :: joinSemi ((g :: gs) ++ [[]]) := rfl
      rw [this, ih (by simp), joinSemi]
      simp

theorem head_dropWhile_false (p : Char → Bool) :
    ∀ (l : List Char) (c : Char), (l.dropWhile p).head? = some c → p c = false := by
  intro l
  induction l with
  | nil => intro c h; simp [List.dropWhile] at h
  | cons a l' ih =>
    intro c h
    by_cases ha : p a
    · rw [List.dropWhile_cons_of_pos ha] at h
      exact ih c h
    · rw [List.dropWhile_cons_of_neg ha] at h
      simp at h
      rw [← h]
      cases hpa : p a with
      | false => rfl
      | true => exact absurd hpa ha

theorem dropWhile_eq_self_of_head (p : Char → Bool) (l : List Char)
    (h : ∀ c, l.head? = some c → p c = false) : l.dropWhile p = l := by
  cases l with
  | nil => rfl
  | cons a l' =>
    have ha := h a rfl
    rw [List.dropWhile_cons_of_neg (by simp [ha])]

theorem head?_append_left {α : Type} (B t : List α) (c : α) (h : B.head? = some c) :
    (B ++ t).head? = some c := by
  cases B with
  | nil => simp at h
  | cons b B' => simpa using h

theorem head_pyStrip (l : List Char) (c : Char) (h : (pyStrip l).head? = some c) :
    pyIsSpace c = false := by
  obtain ⟨t, ht⟩ := List.dropWhile_suffix (l := (l.dropWhile pyIsSpace).reverse) pyIsSpace
  have hA := congrArg List.reverse ht
  rw [List.reverse_append, List.reverse_reverse] at hA
  apply head_dropWhile_false pyIsSpace l c
  rw [← hA]
  exact head?_append_left _ _ _ h

theorem getLast_pyStrip (l : List Char) (c : Char) (h : (pyStrip l).getLast? = some c) :
    pyIsSpace c = false := by
  unfold pyStrip at h
  rw [List.getLast?_reverse] at h
  exact head_dropWhile_false pyIsSpace _ c h

theorem pyStrip_idem (l : List Char) : pyStrip (pyStrip l) = pyStrip l := by
  have h1 : (pyStrip l).dropWhile pyIsSpace = pyStrip l :=
    dropWhile_eq_self_of_head _ _ (head_pyStrip l)
  have h2 : (pyStrip l).reverse.dropWhile pyIsSpace = (pyStrip l).reverse := by
    apply dropWhile_eq_self_of_head
    intro c hc
    rw [List.head?_reverse] at hc
    exact getLast_pyStrip l c hc
  show (((pyStrip l).dropWhile pyIsSpace).reverse.dropWhile pyIsSpace).reverse = pyStrip l
  rw [h1, h2, List.reverse_reverse]

theorem mem_of_mem_pyStrip (l : List Char) (c : Char) (h : c ∈ pyStrip l) : c ∈ l := by
  unfold pyStrip at h
  rw [List.mem_reverse] at h
  have h2 : c ∈ (l.dropWhile pyIsSpace).reverse :=
    ((List.dropWhile_suffix pyIsSpace).sublist).mem h
  rw [List.mem_reverse] at h2
  exact ((List.dropWhile_suffix pyIsSpace).sublist).mem h2

theorem pyStrip_ne_nil_of_keep (f : List Char) (h : (!(pyStrip f).isEmpty) = true) :
    pyStrip f ≠ [] := by
  intro hnil
  rw [hnil] at h
  simp at h

theorem mem_deriveStatements (text s : List Char) (h : s ∈ deriveStatements text) :
    ∃ f ∈ splitSemi text, (!(pyStrip f).isEmpty) = true ∧ s = pyStrip f := by
  unfold deriveStatements at h
  rw [List.mem_map] at h
  obtain ⟨f, hf, hs⟩ := h
  rw [List.mem_filter] at hf
  exact ⟨f, hf.1, hf.2, hs.symm⟩

theorem deriveStatements_props (text s : List Char) (h : s ∈ deriveStatements text) :
    s ≠ [] ∧ pyStrip s = s ∧ ';' ∉ s := by
  obtain ⟨f, hf, hkeep, rfl⟩ := mem_deriveStatements text s h
  refine ⟨pyStrip_ne_nil_of_keep f hkeep, pyStrip_idem f, ?_⟩
  intro hmem
  exact not_semi_mem_of_mem_splitSemi text f hf (mem_of_mem_pyStrip f ';' hmem)

theorem filter_map_pyStrip (l : List (List Char)) :
    (l.filter (fun s => !(pyStrip s).isEmpty)).map pyStrip
      = (l.map pyStrip).filter (fun t => !t.isEmpty) := by
  induction l with
  | nil => rfl
  | cons f fs ih =>
    cases hf : (!(pyStrip f).isEmpty) with
    | true => simp [List.filter_cons, hf, ih]
    | false => simp [List.filter_cons, hf, ih]

theorem filter_keep_all (l : List (List Char)) (h : ∀ s ∈ l, s ≠ []) :
    l.filter (fun t => !t.isEmpty) = l := by
  induction l with
  | nil => rfl
  | cons f fs ih =>
    have hf : (!f.isEmpty) = true := by
      simpa [List.isEmpty_iff] using h f (List.mem_cons_self f fs)
    simp [List.filter_cons, hf, ih (fun s hs => h s (List.mem_cons_of_mem f hs))]

theorem map_pyStrip_id (l : List (List Char)) (h : ∀ s ∈ l, pyStrip s = s) :
    l.map pyStrip = l := by
  induction l with
  | nil => rfl
  | cons f fs ih =>
    rw [List.map_cons, h f (List.mem_cons_self f fs),
      ih (fun s hs => h s (List.mem_cons_of_mem f hs))]

theorem deriveStatements_joinSemi (frags : List (List Char)) (hne : frags ≠ [])
    (hsemi : ∀ f ∈ frags, ';' ∉ f) :
    deriveStatements (joinSemi frags) = (frags.map pyStrip).filter (fun t => !t.isEmpty) := by
  unfold deriveStatements
  rw [splitSemi_joinSemi frags hne hsemi, filter_map_pyStrip]

/-! ## Lemmas about the execution loop -/

theorem consTrace_eval {σ DB E : Type} (s : σ) (db : DB) (tr : List σ) (err : Option E) :
    consTrace s (db, tr, err) = (db, s :: tr, err) := rfl

theorem execLoop_cons {DB E : Type} (exec : List Char → DB → Except E DB)
    (s : List Char) (rest : List (List Char)) (db : DB) :
    execLoop exec (s :: rest) db =
      if s.isEmpty then execLoop exec rest db
      else
        match exec s db with
        | .ok db' => consTrace s (execLoop exec rest db')
        | .error e => (db, [s], some e) := rfl

theorem execLoopNoGuard_cons {DB E : Type} (exec : List Char → DB → Except E DB)
    (s : List Char) (rest : List (List Char)) (db : DB) :
    execLoopNoGuard exec (s :: rest) db =
      match exec s db with
      | .ok db' => consTrace s (execLoopNoGuard exec rest db')
      | .error e => (db, [s], some e) := rfl

theorem execAll_cons {DB E : Type} (exec : List Char → DB → Except E DB)
    (s : List Char) (rest : List (List Char)) (db : DB) :
    execAll exec (s :: rest) db =
      match exec s db with
      | .ok db' => execAll exec rest db'
      | .error _ => none := rfl

theorem execLoop_eq_noGuard {DB E : Type} (exec : List Char → DB → Except E DB)
    (L : List (List Char)) (h : ∀ s ∈ L, s ≠ []) (db : DB) :
    execLoop exec L db = execLoopNoGuard exec L db := by
  induction L generalizing db with
  | nil => rfl
  | cons s rest ih =>
    have hs : s.isEmpty = false := by
      have hne := h s (List.mem_cons_self s rest)
      cases s with
      | nil => exact absurd rfl hne
      | cons a t => rfl
    rw [execLoop_cons, execLoopNoGuard_cons, if_neg (by simp [hs])]
    cases hexec : exec s db with
    | ok db' =>
      show consTrace s (execLoop exec rest db') = consTrace s (execLoopNoGuard exec rest db')
      rw [ih (fun x hx => h x (List.mem_cons_of_mem s hx)) db']
    | error e => rfl

/-! ## Claim theorems: upgrade side -/

/-- C1: For a schema document assembled from fragments joined by `;`
with no embedded `;` in any fragment, `upgrade()`'s statement
derivation (split on `;`, trim, discard empties) yields exactly the
trimmed non-empty fragments in order (first conjunct); in particular,
for already-trimmed non-empty statements, it returns exactly the
original statements in order, both without and with a trailing `;` —
the empty trailing fragment is discarded and never passed to the
connection (second conjunct). -/
theorem C1_statement_derivation_roundtrip :
    (∀ frags : List (List Char), frags ≠ [] → (∀ f ∈ frags, ';' ∉ f) →
      deriveStatements (joinSemi frags)
        = (frags.map pyStrip).filter (fun t => !t.isEmpty))
    ∧ (∀ stmts : List (List Char), stmts ≠ [] →
        (∀ s ∈ stmts, s ≠ [] ∧ pyStrip s = s ∧ ';' ∉ s) →
        deriveStatements (joinSemi stmts) = stmts
          ∧ deriveStatements (joinSemi stmts ++ [';']) = stmts) := by
  constructor
  · exact deriveStatements_joinSemi
  · intro stmts hne h
    have hid : stmts.map pyStrip = stmts :=
      map_pyStrip_id stmts (fun s hs => (h s hs).2.1)
    have hkeep : stmts.filter (fun t => !t.isEmpty) = stmts :=
      filter_keep_all stmts (fun s hs => (h s hs).1)
    constructor
    · rw [deriveStatements_joinSemi stmts hne (fun f hf => (h f hf).2.2), hid, hkeep]
    · have hsemi : ∀ f ∈ stmts ++ [[]], ';' ∉ f := by
        intro f hf
        rcases List.mem_append.mp hf with h1 | h1
        · exact (h f h1).2.2
        · simp at h1
          simp [h1]
      rw [← joinSemi_append_nil stmts hne,
        deriveStatements_joinSemi (stmts ++ [[]]) (by simp) hsemi,
        List.map_append, List.filter_append, hid, hkeep]
      simp [pyStrip]

/-- C1 witness: the two-statement document `a;b` and its variant with a
trailing `;` both derive exactly the two statements. -/
theorem C1_statement_derivation_roundtrip_witness :
    deriveStatements (joinSemi [['a'], ['b']]) = [['a'], ['b']]
    ∧ deriveStatements (joinSemi [['a'], ['b']] ++ [';']) = [['a'], ['b']] :=
  C1_statement_derivation_roundtrip.2 [['a'], ['b']] (by decide) (by decide)

/-- C2: the execution loop of `upgrade()` executes the derived
statements in sequence and stops at the first failure with no cleanup:
either every statement succeeds (final state is the all-succeed fold,
every statement was sent, no error), or the statement list splits as
`pre ++ s :: post` where all of `pre` succeeded, `s` failed, exactly
`pre ++ [s]` was sent (nothing after the failing statement), and the
final connection state is the state reached after `pre` (nothing is
undone). -/
theorem C2_stop_at_first_failure (DB E : Type) (exec : List Char → DB → Except E DB)
    (stmts : List (List Char)) (db : DB) (hne : ∀ s ∈ stmts, s ≠ []) :
    (∃ db', execAll exec stmts db = some db'
        ∧ execLoop exec stmts db = (db', stmts, none))
    ∨ (∃ pre s post db' e, stmts = pre ++ s :: post
        ∧ execAll exec pre db = some db'
        ∧ exec s db' = .error e
        ∧ execLoop exec stmts db = (db', pre ++ [s], some e)) := by
  induction stmts generalizing db with
  | nil => exact Or.inl ⟨db, rfl, rfl⟩
  | cons s rest ih =>
    have hs : s.isEmpty = false := by
      have hne' := hne s (List.mem_cons_self s rest)
      cases s with
      | nil => exact absurd rfl hne'
      | cons a t => rfl
    cases hexec : exec s db with
    | error e =>
      refine Or.inr ⟨[], s, rest, db, e, rfl, rfl, hexec, ?_⟩
      rw [execLoop_cons, if_neg (by simp [hs]), hexec]
      rfl
    | ok db1 =>
      rcases ih db1 (fun x hx => hne x (List.mem_cons_of_mem s hx)) with
        ⟨db', hall, hloop⟩ | ⟨pre, t, post, db', e, heq, hall, hfail, hloop⟩
      · refine Or.inl ⟨db', ?_, ?_⟩
        · rw [execAll_cons, hexec]
          exact hall
        · rw [execLoop_cons, if_neg (by simp [hs]), hexec]
          show consTrace s (execLoop exec rest db1) = _
          rw [hloop]
          rfl
      · refine Or.inr ⟨s :: pre, t, post, db', e, by rw [heq]; rfl, ?_, hfail, ?_⟩
        · rw [execAll_cons, hexec]
          exact hall
        · rw [execLoop_cons, if_neg (by simp [hs]), hexec]
          show consTrace s (execLoop exec rest db1) = _
          rw [hloop]
          rfl

/-- C2 witness: with a connection on which the one-character statement
fails, the loop over `[ab, c]` stops at `c` keeping the effect of
`ab`. -/
theorem C2_stop_at_first_failure_witness :
    (∃ db', execAll execW [['a', 'b'], ['c']] [] = some db'
        ∧ execLoop execW [['a', 'b'], ['c']] [] = (db', [['a', 'b'], ['c']], none))
    ∨ (∃ pre s post db' e, [['a', 'b'], ['c']] = pre ++ s :: post
        ∧ execAll execW pre [] = some db'
        ∧ execW s db' = .error e
        ∧ execLoop execW [['a', 'b'], ['c']] [] = (db', pre ++ [s], some e)) :=
  C2_stop_at_first_failure (List (List Char)) Nat execW [['a', 'b'], ['c']] []
    (by decide)

/-- C3: when opening the schema file fails, `upgrade()` raises the I/O
error and zero statements are sent to the connection. -/
theorem C3_io_error_no_sql (DB E : Type) (fs : List String → Option (List Char))
    (loc : List String) (exec : List Char → DB → Except E DB) (db : DB)
    (h : fs (schemaPath loc) = none) :
    upgradeRun fs loc exec db = .error ()
    ∧ sentStatements (upgradeRun fs loc exec db) = [] := by
  have h1 : upgradeRun fs loc exec db = .error () := by
    unfold upgradeRun
    rw [h]
  refine ⟨h1, ?_⟩
  rw [h1]
  rfl

/-- C3 witness: a file system with no schema file at the computed
path. -/
theorem C3_io_error_no_sql_witness :
    upgradeRun (fun _ => none)
        ["src", "db", "migrations", "versions", "001_initial_schema.py"]
        (fun (_ : List Char) (db : Unit) => (Except.ok db : Except Unit Unit)) ()
      = .error ()
    ∧ sentStatements (upgradeRun (fun _ => none)
        ["src", "db", "migrations", "versions", "001_initial_schema.py"]
        (fun (_ : List Char) (db : Unit) => (Except.ok db : Except Unit Unit)) ())
      = [] :=
  C3_io_error_no_sql Unit Unit (fun _ => none)
    ["src", "db", "migrations", "versions", "001_initial_schema.py"]
    (fun _ db => Except.ok db) () rfl

/-- C7: on the schema document
`CREATE TABLE t (id int); CREATE TABLE u (id int);`, `upgrade()`
derives and executes exactly two statements, in order, `t` before `u`
(assuming both succeed on the connection). -/
theorem C7_two_statements_in_order (DB E : Type) (exec : List Char → DB → Except E DB)
    (fs : List String → Option (List Char)) (loc : List String) (db db1 db2 : DB)
    (hfs : fs (schemaPath loc)
      = some ("CREATE TABLE t (id int); CREATE TABLE u (id int);".toList))
    (h1 : exec ("CREATE TABLE t (id int)".toList) db = .ok db1)
    (h2 : exec ("CREATE TABLE u (id int)".toList) db1 = .ok db2) :
    deriveStatements ("CREATE TABLE t (id int); CREATE TABLE u (id int);".toList)
      = ["CREATE TABLE t (id int)".toList, "CREATE TABLE u (id int)".toList]
    ∧ upgradeRun fs loc exec db
      = .ok (db2,
          ["CREATE TABLE t (id int)".toList, "CREATE TABLE u (id int)".toList],
          none) := by
  have hd : deriveStatements ("CREATE TABLE t (id int); CREATE TABLE u (id int);".toList)
      = ["CREATE TABLE t (id int)".toList, "CREATE TABLE u (id int)".toList] := by
    decide
  refine ⟨hd, ?_⟩
  have hrun : execLoop exec
      ["CREATE TABLE t (id int)".toList, "CREATE TABLE u (id int)".toList] db
      = (db2, ["CREATE TABLE t (id int)".toList, "CREATE TABLE u (id int)".toList],
          none) := by
    rw [execLoop_cons, if_neg (by decide), h1]
    show consTrace _ (execLoop exec ["CREATE TABLE u (id int)".toList] db1) = _
    rw [execLoop_cons, if_neg (by decide), h2]
    rfl
  unfold upgradeRun
  rw [hfs]
  show Except.ok (execLoop exec
      (deriveStatements ("CREATE TABLE t (id int); CREATE TABLE u (id int);".toList)) db)
    = _
  rw [hd, hrun]

/-- C7 witness: a trace-recording connection executes the two concrete
statements in order. -/
theorem C7_two_statements_in_order_witness :
    deriveStatements ("CREATE TABLE t (id int); CREATE TABLE u (id int);".toList)
      = ["CREATE TABLE t (id int)".toList, "CREATE TABLE u (id int)".toList]
    ∧ upgradeRun fsW ["src", "db", "migrations", "versions", "001_initial_schema.py"]
        execOkW []
      = .ok (["CREATE TABLE t (id int)".toList, "CREATE TABLE u (id int)".toList],
          ["CREATE TABLE t (id int)".toList, "CREATE TABLE u (id int)".toList],
          none) :=
  C7_two_statements_in_order (List (List Char)) Unit execOkW fsW
    ["src", "db", "migrations", "versions", "001_initial_schema.py"]
    [] ["CREATE TABLE t (id int)".toList]
    ["CREATE TABLE t (id int)".toList, "CREATE TABLE u (id int)".toList]
    rfl rfl rfl

/-- C8 counterexample: at the repository's actual layout
`src/db/migrations/versions/001_initial_schema.py`, three `dirname`
applications land in `src/db` — one directory above the `migrations`
directory, not two: the path the source computes differs from the
spec's "two directories above the migrations directory". -/
theorem C8_counterexample :
    schemaPath ["src", "db", "migrations", "versions", "001_initial_schema.py"]
        = ["src", "db", "schema.sql"]
    ∧ specSchemaPathTwoAboveMigrations
        ["src", "db", "migrations", "versions", "001_initial_schema.py"]
        = ["src", "schema.sql"]
    ∧ schemaPath ["src", "db", "migrations", "versions", "001_initial_schema.py"]
        ≠ specSchemaPathTwoAboveMigrations
            ["src", "db", "migrations", "versions", "001_initial_schema.py"] := by
  refine ⟨rfl, rfl, ?_⟩
  decide

/-- C8 (amended): `upgrade()` locates the schema document at a fixed
relative path computed from the migration file's own location — three
levels up from the file, then `schema.sql`; equivalently, one directory
above the `migrations` directory.  The path depends on nothing but the
file's location (`schemaPath` is a function of `loc` alone). -/
theorem C8_schema_path_amended (loc : List String) :
    schemaPath loc = pyDirname (pyDirname (pyDirname loc)) ++ ["schema.sql"]
    ∧ schemaPath loc = pyDirname (migrationsDir loc) ++ ["schema.sql"] :=
  ⟨rfl, rfl⟩

/-- C9: the module exposes exactly the four revision-metadata constants
with their fixed values: revision id `"001"`, predecessor `None`,
branch labels `None`, dependencies `None`.  In this pure embedding they
are constants, so they are never mutated by `upgradeRun` or
`runTeardown`. -/
theorem C9_revision_metadata :
    revision = "001" ∧ down_revision = none
    ∧ branch_labels = none ∧ depends_on = none :=
  ⟨rfl, rfl, rfl, rfl⟩

/-- C10: every statement `upgrade()` derives (and hence passes to the
connection) is non-empty, carries no leading or trailing whitespace
(it is its own trim, and its first and last characters are
non-whitespace), and contains no `;`; consequently the inner
non-emptiness guard of the loop never fires — the guarded loop equals
the guard-free loop on the derived statements.  The derived sequence is
a function of the document text alone. -/
theorem C10_derived_statement_invariants (text : List Char) :
    (∀ s ∈ deriveStatements text,
      s ≠ [] ∧ pyStrip s = s ∧ ';' ∉ s
        ∧ (∀ c, s.head? = some c → pyIsSpace c = false)
        ∧ (∀ c, s.getLast? = some c → pyIsSpace c = false))
    ∧ (∀ (DB E : Type) (exec : List Char → DB → Except E DB) (db : DB),
        execLoop exec (deriveStatements text) db
          = execLoopNoGuard exec (deriveStatements text) db) := by
  constructor
  · intro s hs
    obtain ⟨hne, hstrip, hsemi⟩ := deriveStatements_props text s hs
    refine ⟨hne, hstrip, hsemi, ?_, ?_⟩
    · intro c hc
      apply head_pyStrip s c
      rw [hstrip]
      exact hc
    · intro c hc
      apply getLast_pyStrip s c
      rw [hstrip]
      exact hc
  · intro DB E exec db
    exact execLoop_eq_noGuard exec (deriveStatements text)
      (fun s hs => (deriveStatements_props text s hs).1) db

/-- C10 witness: on the document `a; ;b` (whose middle fragment trims
to empty and is discarded) the statement `a` is derived, its head is
non-whitespace, and the guarded and guard-free loops agree. -/
theorem C10_derived_statement_invariants_witness :
    pyIsSpace 'a' = false
    ∧ execLoop execOkW (deriveStatements ("a; ;b".toList)) []
        = execLoopNoGuard execOkW (deriveStatements ("a; ;b".toList)) [] := by
  have h := C10_derived_statement_invariants ("a; ;b".toList)
  refine ⟨?_, h.2 _ _ execOkW []⟩
  exact (h.1 ['a'] (by decide)).2.2.2.1 'a' rfl

/-! ## Lemmas about the teardown sequence -/

theorem runTeardown_cons (s : TeardownStmt) (L : List TeardownStmt) (st : PGState) :
    runTeardown (s :: L) st =
      match execDrop s st with
      | .ok st' => consTrace s (runTeardown L st')
      | .error _ => (st, [s], some ()) := rfl

theorem runTeardownAll_cons (s : TeardownStmt) (L : List TeardownStmt) (st : PGState) :
    runTeardownAll (s :: L) st =
      match execDrop s st with
      | .ok st' => runTeardownAll L st'
      | .error _ => none := rfl

theorem execDrop_dropViewIfExists (n : String) (st : PGState) :
    execDrop (.dropViewIfExists n) st
      = .ok ⟨st.tables, st.views.erase n, st.funcs, st.exts, st.deps⟩ := rfl

theorem execDrop_dropTable (n : String) (st : PGState) :
    execDrop (.dropTable n) st =
      if n ∈ st.tables ∧ ¬ HasDependents n st then
        .ok ⟨st.tables.erase n, st.views, st.funcs, st.exts, st.deps⟩
      else .error () := rfl

theorem execDrop_dropFunctionIfExists (n : String) (st : PGState) :
    execDrop (.dropFunctionIfExists n) st
      = .ok ⟨st.tables, st.views, st.funcs.erase n, st.exts, st.deps⟩ := rfl

theorem execDrop_dropExtensionIfExists (n : String) (st : PGState) :
    execDrop (.dropExtensionIfExists n) st
      = .ok ⟨st.tables, st.views, st.funcs, st.exts.erase n, st.deps⟩ := rfl

theorem mem_take_of_posIn_lt :
    ∀ (l : List String) (a : String) (k : Nat),
      posIn l a < k → k ≤ l.length → a ∈ l.take k := by
  intro l
  induction l with
  | nil =>
    intro a k h hk
    simp [posIn] at h
    simp at hk
    omega
  | cons b rest ih =>
    intro a k h hk
    by_cases hba : b = a
    · subst hba
      cases k with
      | zero => exact absurd h (Nat.not_lt_zero _)
      | succ k' =>
        rw [List.take_succ_cons]
        exact List.mem_cons_self _ _
    · have hpos : posIn (b :: rest) a = posIn rest a + 1 := by
        simp [posIn, hba]
      rw [hpos] at h
      cases k with
      | zero => exact absurd h (Nat.not_lt_zero _)
      | succ k' =>
        rw [List.take_succ_cons]
        apply List.mem_cons_of_mem
        apply ih a k' (by omega)
        have : rest.length + 1 = (b :: rest).length := rfl
        omega

theorem not_hasDependents (deps : List (String × String)) (h : DepsOk deps)
    (t : String) (ts vs fns xts : List String) (k : Nat)
    (ht : posIn dropOrder t = k) (hk : k ≤ dropOrder.length)
    (hlive : ∀ n ∈ dropOrder.take k, ¬ n ∈ ts ∧ ¬ n ∈ vs) :
    ¬ HasDependents t ⟨ts, vs, fns, xts, deps⟩ := by
  intro hdep
  unfold HasDependents at hdep
  obtain ⟨e, he, het, hmem⟩ := hdep
  have hlt := h e he
  rw [het, ht] at hlt
  have hmem' : e.1 ∈ dropOrder.take k := mem_take_of_posIn_lt dropOrder e.1 k hlt hk
  have hnot := hlive e.1 hmem'
  rcases hmem with hm | hm
  · exact hnot.1 hm
  · exact hnot.2 hm

theorem runTeardown_of_all_ok :
    ∀ (L : List TeardownStmt) (st st' : PGState),
      runTeardownAll L st = some st' → runTeardown L st = (st', L, none) := by
  intro L
  induction L with
  | nil =>
    intro st st' h
    have h' : st = st' := Option.some.inj h
    subst h'
    rfl
  | cons s L ih =>
    intro st st' h
    rw [runTeardownAll_cons] at h
    cases hexec : execDrop s st with
    | ok st1 =>
      rw [hexec] at h
      have h' : runTeardownAll L st1 = some st' := h
      rw [runTeardown_cons, hexec]
      show consTrace s (runTeardown L st1) = _
      rw [ih st1 st' h']
      rfl
    | error e =>
      rw [hexec] at h
      have h' : (none : Option PGState) = some st' := h
      exact Option.noConfusion h'

theorem runTeardown_append_fail :
    ∀ (pre : List TeardownStmt) (s : TeardownStmt) (post : List TeardownStmt)
      (st st' : PGState),
      runTeardownAll pre st = some st' → execDrop s st' = .error () →
      runTeardown (pre ++ s :: post) st = (st', pre ++ [s], some ()) := by
  intro pre
  induction pre with
  | nil =>
    intro s post st st' hall hfail
    have h' : st = st' := Option.some.inj hall
    subst h'
    rw [List.nil_append, runTeardown_cons, hfail]
    rfl
  | cons p pre ih =>
    intro s post st st' hall hfail
    rw [runTeardownAll_cons] at hall
    cases hexec : execDrop p st with
    | ok st1 =>
      rw [hexec] at hall
      have hall' : runTeardownAll pre st1 = some st' := hall
      rw [List.cons_append, runTeardown_cons, hexec]
      show consTrace p (runTeardown (pre ++ s :: post) st1) = _
      rw [ih s post st1 st' hall' hfail]
      rfl
    | error e =>
      rw [hexec] at hall
      have h' : (none : Option PGState) = some st' := hall
      exact Option.noConfusion h'

theorem downgrade_run_from_upgrade (deps : List (String × String)) (h : DepsOk deps) :
    runTeardownAll downgradeStmts (upgradeState deps) = some ⟨[], [], [], [], deps⟩ := by
  have hd0 : ¬ HasDependents "notifications"
      ⟨createdTables.drop 0, [], ["update_updated_at_column"], ["uuid-ossp"], deps⟩ :=
    not_hasDependents deps h "notifications" (createdTables.drop 0) []
      ["update_updated_at_column"] ["uuid-ossp"] 3 (by decide) (by decide) (by decide)
  have hd1 : ¬ HasDependents "output_actions"
      ⟨createdTables.drop 1, [], ["update_updated_at_column"], ["uuid-ossp"], deps⟩ :=
    not_hasDependents deps h "output_actions" (createdTables.drop 1) []
      ["update_updated_at_column"] ["uuid-ossp"] 4 (by decide) (by decide) (by decide)
  have hd2 : ¬ HasDependents "audit_logs"
      ⟨createdTables.drop 2, [], ["update_updated_at_column"], ["uuid-ossp"], deps⟩ :=
    not_hasDependents deps h "audit_logs" (createdTables.drop 2) []
      ["update_updated_at_column"] ["uuid-ossp"] 5 (by decide) (by decide) (by decide)
  have hd3 : ¬ HasDependents "documents"
      ⟨createdTables.drop 3, [], ["update_updated_at_column"], ["uuid-ossp"], deps⟩ :=
    not_hasDependents deps h "documents" (createdTables.drop 3) []
      ["update_updated_at_column"] ["uuid-ossp"] 6 (by decide) (by decide) (by decide)
  have hd4 : ¬ HasDependents "processes"
      ⟨createdTables.drop 4, [], ["update_updated_at_column"], ["uuid-ossp"], deps⟩ :=
    not_hasDependents deps h "processes" (createdTables.drop 4) []
      ["update_updated_at_column"] ["uuid-ossp"] 7 (by decide) (by decide) (by decide)
  have hd5 : ¬ HasDependents "configurations"
      ⟨createdTables.drop 5, [], ["update_updated_at_column"], ["uuid-ossp"], deps⟩ :=
    not_hasDependents deps h "configurations" (createdTables.drop 5) []
      ["update_updated_at_column"] ["uuid-ossp"] 8 (by decide) (by decide) (by decide)
  have hd6 : ¬ HasDependents "prompts"
      ⟨createdTables.drop 6, [], ["update_updated_at_column"], ["uuid-ossp"], deps⟩ :=
    not_hasDependents deps h "prompts" (createdTables.drop 6) []
      ["update_updated_at_column"] ["uuid-ossp"] 9 (by decide) (by decide) (by decide)
  have hd7 : ¬ HasDependents "process_types"
      ⟨createdTables.drop 7, [], ["update_updated_at_column"], ["uuid-ossp"], deps⟩ :=
    not_hasDependents deps h "process_types" (createdTables.drop 7) []
      ["update_updated_at_column"] ["uuid-ossp"] 10 (by decide) (by decide) (by decide)
  have hd8 : ¬ HasDependents "users"
      ⟨createdTables.drop 8, [], ["update_updated_at_column"], ["uuid-ossp"], deps⟩ :=
    not_hasDependents deps h "users" (createdTables.drop 8) []
      ["update_updated_at_column"] ["uuid-ossp"] 11 (by decide) (by decide) (by decide)
  have hd9 : ¬ HasDependents "clients"
      ⟨createdTables.drop 9, [], ["update_updated_at_column"], ["uuid-ossp"], deps⟩ :=
    not_hasDependents deps h "clients" (createdTables.drop 9) []
      ["update_updated_at_column"] ["uuid-ossp"] 12 (by decide) (by decide) (by decide)
  show runTeardownAll (.dropTable "notifications" :: downgradeStmts.drop 4)
      ⟨createdTables.drop 0, [], ["update_updated_at_column"], ["uuid-ossp"], deps⟩
    = some ⟨[], [], [], [], deps⟩
  rw [runTeardownAll_cons, execDrop_dropTable,
    if_pos ⟨(by decide : "notifications" ∈ createdTables.drop 0), hd0⟩]
  show runTeardownAll (.dropTable "output_actions" :: downgradeStmts.drop 5)
      ⟨createdTables.drop 1, [], ["update_updated_at_column"], ["uuid-ossp"], deps⟩
    = some ⟨[], [], [], [], deps⟩
  rw [runTeardownAll_cons, execDrop_dropTable,
    if_pos ⟨(by decide : "output_actions" ∈ createdTables.drop 1), hd1⟩]
  show runTeardownAll (.dropTable "audit_logs" :: downgradeStmts.drop 6)
      ⟨createdTables.drop 2, [], ["update_updated_at_column"], ["uuid-ossp"], deps⟩
    = some ⟨[], [], [], [], deps⟩
  rw [runTeardownAll_cons, execDrop_dropTable,
    if_pos ⟨(by decide : "audit_logs" ∈ createdTables.drop 2), hd2⟩]
  show runTeardownAll (.dropTable "documents" :: downgradeStmts.drop 7)
      ⟨createdTables.drop 3, [], ["update_updated_at_column"], ["uuid-ossp"], deps⟩
    = some ⟨[], [], [], [], deps⟩
  rw [runTeardownAll_cons, execDrop_dropTable,
    if_pos ⟨(by decide : "documents" ∈ createdTables.drop 3), hd3⟩]
  show runTeardownAll (.dropTable "processes" :: downgradeStmts.drop 8)
      ⟨createdTables.drop 4, [], ["update_updated_at_column"], ["uuid-ossp"], deps⟩
    = some ⟨[], [], [], [], deps⟩
  rw [runTeardownAll_cons, execDrop_dropTable,
    if_pos ⟨(by decide : "processes" ∈ createdTables.drop 4), hd4⟩]
  show runTeardownAll (.dropTable "configurations" :: downgradeStmts.drop 9)
      ⟨createdTables.drop 5, [], ["update_updated_at_column"], ["uuid-ossp"], deps⟩
    = some ⟨[], [], [], [], deps⟩
  rw [runTeardownAll_cons, execDrop_dropTable,
    if_pos ⟨(by decide : "configurations" ∈ createdTables.drop 5), hd5⟩]
  show runTeardownAll (.dropTable "prompts" :: downgradeStmts.drop 10)
      ⟨createdTables.drop 6, [], ["update_updated_at_column"], ["uuid-ossp"], deps⟩
    = some ⟨[], [], [], [], deps⟩
  rw [runTeardownAll_cons, execDrop_dropTable,
    if_pos ⟨(by decide : "prompts" ∈ createdTables.drop 6), hd6⟩]
  show runTeardownAll (.dropTable "process_types" :: downgradeStmts.drop 11)
      ⟨createdTables.drop 7, [], ["update_updated_at_column"], ["uuid-ossp"], deps⟩
    = some ⟨[], [], [], [], deps⟩
  rw [runTeardownAll_cons, execDrop_dropTable,
    if_pos ⟨(by decide : "process_types" ∈ createdTables.drop 7), hd7⟩]
  show runTeardownAll (.dropTable "users" :: downgradeStmts.drop 12)
      ⟨createdTables.drop 8, [], ["update_updated_at_column"], ["uuid-ossp"], deps⟩
    = some ⟨[], [], [], [], deps⟩
  rw [runTeardownAll_cons, execDrop_dropTable,
    if_pos ⟨(by decide : "users" ∈ createdTables.drop 8), hd8⟩]
  show runTeardownAll (.dropTable "clients" :: downgradeStmts.drop 13)
      ⟨createdTables.drop 9, [], ["update_updated_at_column"], ["uuid-ossp"], deps⟩
    = some ⟨[], [], [], [], deps⟩
  rw [runTeardownAll_cons, execDrop_dropTable,
    if_pos ⟨(by decide : "clients" ∈ createdTables.drop 9), hd9⟩]
  rfl

/-! ## Claim theorems: downgrade side -/

/-- C4: `downgrade()` executes a fixed input-independent sequence —
first the three named views with `IF EXISTS … CASCADE`, then the ten
named tables in the explicit children-before-parents order with no
`IF EXISTS` guard, then the named function and extension with
`IF EXISTS … CASCADE` (first conjunct: names and guards of the
sequence); every guarded drop succeeds on any state (second conjunct);
a plain table drop fails exactly when the table is absent or still has
dependents (third conjunct); and a failure aborts the downgrade
partway: the prior drops' effects remain and nothing after the failing
statement is executed (fourth conjunct). -/
theorem C4_downgrade_fixed_sequence :
    (downgradeStmts.map nameOf
        = ["v_hitl_queue", "v_client_token_usage", "v_active_processes",
           "notifications", "output_actions", "audit_logs", "documents",
           "processes", "configurations", "prompts", "process_types",
           "users", "clients", "update_updated_at_column", "uuid-ossp"]
      ∧ downgradeStmts.map isGuarded
        = [true, true, true, false, false, false, false, false, false,
           false, false, false, false, true, true])
    ∧ (∀ s ∈ downgradeStmts, isGuarded s = true →
        ∀ st : PGState, (execDrop s st).isOk = true)
    ∧ (∀ (n : String) (st : PGState),
        execDrop (.dropTable n) st = .error ()
          ↔ (n ∉ st.tables ∨ HasDependents n st))
    ∧ (∀ (pre : List TeardownStmt) (s : TeardownStmt) (post : List TeardownStmt)
        (st st' : PGState),
        downgradeStmts = pre ++ s :: post →
        runTeardownAll pre st = some st' →
        execDrop s st' = .error () →
        runTeardown downgradeStmts st = (st', pre ++ [s], some ())) := by
  refine ⟨⟨by decide, by decide⟩, ?_, ?_, ?_⟩
  · intro s _ hg st
    cases s with
    | dropViewIfExists n => rfl
    | dropTable n => exact absurd hg (by simp [isGuarded])
    | dropFunctionIfExists n => rfl
    | dropExtensionIfExists n => rfl
  · intro n st
    rw [execDrop_dropTable]
    by_cases hc : n ∈ st.tables ∧ ¬ HasDependents n st
    · rw [if_pos hc]
      constructor
      · intro h'
        exact Except.noConfusion h'
      · intro h'
        rcases h' with h1 | h1
        · exact absurd hc.1 h1
        · exact absurd h1 hc.2
    · rw [if_neg hc]
      constructor
      · intro _
        by_cases hm : n ∈ st.tables
        · right
          by_contra hnd
          exact hc ⟨hm, hnd⟩
        · exact Or.inl hm
      · intro _
        rfl
  · intro pre s post st st' heq hall hfail
    rw [heq]
    exact runTeardown_append_fail pre s post st st' hall hfail

/-- C4 witness: a guarded view drop succeeds on the empty catalog; the
failure condition of a plain table drop instantiated at a concrete
state; and on a state holding only the table `clients`, `downgrade()`
runs the three view drops, fails at the first table drop
(`notifications` is absent) and executes nothing further. -/
theorem C4_downgrade_fixed_sequence_witness :
    (execDrop (TeardownStmt.dropViewIfExists "v_hitl_queue")
        ⟨[], [], [], [], []⟩).isOk = true
    ∧ (execDrop (TeardownStmt.dropTable "users") ⟨[], [], [], [], []⟩ = .error ()
        ↔ ("users" ∉ (⟨[], [], [], [], []⟩ : PGState).tables
            ∨ HasDependents "users" ⟨[], [], [], [], []⟩))
    ∧ runTeardown downgradeStmts ⟨["clients"], [], [], [], []⟩
        = (⟨["clients"], [], [], [], []⟩,
           [TeardownStmt.dropViewIfExists "v_hitl_queue",
            TeardownStmt.dropViewIfExists "v_client_token_usage",
            TeardownStmt.dropViewIfExists "v_active_processes",
            TeardownStmt.dropTable "notifications"],
           some ()) := by
  obtain ⟨-, hb, hc, hd⟩ := C4_downgrade_fixed_sequence
  refine ⟨hb (TeardownStmt.dropViewIfExists "v_hitl_queue") (by decide) rfl
      ⟨[], [], [], [], []⟩,
    hc "users" ⟨[], [], [], [], []⟩, ?_⟩
  exact hd
    [TeardownStmt.dropViewIfExists "v_hitl_queue",
     TeardownStmt.dropViewIfExists "v_client_token_usage",
     TeardownStmt.dropViewIfExists "v_active_processes"]
    (TeardownStmt.dropTable "notifications")
    [TeardownStmt.dropTable "output_actions", TeardownStmt.dropTable "audit_logs",
     TeardownStmt.dropTable "documents", TeardownStmt.dropTable "processes",
     TeardownStmt.dropTable "configurations", TeardownStmt.dropTable "prompts",
     TeardownStmt.dropTable "process_types", TeardownStmt.dropTable "users",
     TeardownStmt.dropTable "clients",
     TeardownStmt.dropFunctionIfExists "update_updated_at_column",
     TeardownStmt.dropExtensionIfExists "uuid-ossp"]
    ⟨["clients"], [], [], [], []⟩ ⟨["clients"], [], [], [], []⟩
    (by decide) (by decide) (by decide)

/-- C5 counterexample: `downgrade()` names exactly ten distinct tables
in its plain table drops — not eleven as the claim states. -/
theorem C5_counterexample :
    (downgradeStmts.filter (fun s => !(isGuarded s))).map nameOf
      = ["notifications", "output_actions", "audit_logs", "documents",
         "processes", "configurations", "prompts", "process_types",
         "users", "clients"]
    ∧ ((downgradeStmts.filter (fun s => !(isGuarded s))).map nameOf).Nodup
    ∧ ((downgradeStmts.filter (fun s => !(isGuarded s))).map nameOf).length = 10
    ∧ ¬ ((downgradeStmts.filter (fun s => !(isGuarded s))).map nameOf).length = 11 :=
  ⟨by decide, by decide, by decide, by decide⟩

/-- C5 (amended): running `upgrade()` (which per the spec creates the
ten — not eleven — named tables, the three named views, the function
and the extension, with any dependency graph respecting the teardown
order) and then immediately `downgrade()` succeeds and leaves the
database free of the ten named tables, the three named views
(`v_hitl_queue`, `v_client_token_usage`, `v_active_processes`), the
function `update_updated_at_column()` and the extension `uuid-ossp`. -/
theorem C5_upgrade_then_downgrade_amended (deps : List (String × String))
    (h : DepsOk deps) :
    ∃ fin : PGState,
      runTeardown downgradeStmts (upgradeState deps) = (fin, downgradeStmts, none)
      ∧ (∀ t ∈ createdTables, t ∉ fin.tables)
      ∧ (∀ v ∈ createdViews, v ∉ fin.views)
      ∧ "update_updated_at_column" ∉ fin.funcs
      ∧ "uuid-ossp" ∉ fin.exts := by
  refine ⟨⟨[], [], [], [], deps⟩,
    runTeardown_of_all_ok downgradeStmts (upgradeState deps) _
      (downgrade_run_from_upgrade deps h),
    ?_, ?_, by simp, by simp⟩
  · intro t _ ht
    simp at ht
  · intro v _ hv
    simp at hv

/-- C5 witness: with the empty dependency graph, the full
upgrade-then-downgrade round trip empties the catalog. -/
theorem C5_upgrade_then_downgrade_amended_witness :
    DepsOk []
    ∧ ∃ fin : PGState,
        runTeardown downgradeStmts (upgradeState []) = (fin, downgradeStmts, none)
        ∧ (∀ t ∈ createdTables, t ∉ fin.tables)
        ∧ (∀ v ∈ createdViews, v ∉ fin.views)
        ∧ "update_updated_at_column" ∉ fin.funcs
        ∧ "uuid-ossp" ∉ fin.exts :=
  ⟨by decide, C5_upgrade_then_downgrade_amended [] (by decide)⟩

/-- C6: invoking `downgrade()` twice in a row: on any state left by a
first downgrade (the three views gone, the `notifications` table gone),
the second invocation's guarded view drops succeed with no effect but
the run fails at the first plain table drop, executing nothing further
(first conjunct); and in general each `IF EXISTS`-guarded drop — view,
function, extension — succeeds with no effect when the object is absent
(remaining conjuncts). -/
theorem C6_second_downgrade_fails_at_first_table (st : PGState)
    (h1 : "v_hitl_queue" ∉ st.views)
    (h2 : "v_client_token_usage" ∉ st.views)
    (h3 : "v_active_processes" ∉ st.views)
    (h4 : "notifications" ∉ st.tables) :
    runTeardown downgradeStmts st
      = (st, [TeardownStmt.dropViewIfExists "v_hitl_queue",
              TeardownStmt.dropViewIfExists "v_client_token_usage",
              TeardownStmt.dropViewIfExists "v_active_processes",
              TeardownStmt.dropTable "notifications"], some ())
    ∧ (∀ (n : String) (st2 : PGState), n ∉ st2.views →
        execDrop (.dropViewIfExists n) st2 = .ok st2)
    ∧ (∀ (n : String) (st2 : PGState), n ∉ st2.funcs →
        execDrop (.dropFunctionIfExists n) st2 = .ok st2)
    ∧ (∀ (n : String) (st2 : PGState), n ∉ st2.exts →
        execDrop (.dropExtensionIfExists n) st2 = .ok st2) := by
  have hview : ∀ (n : String) (st2 : PGState), n ∉ st2.views →
      execDrop (.dropViewIfExists n) st2 = .ok st2 := by
    intro n st2 hn
    rw [execDrop_dropViewIfExists, List.erase_of_not_mem hn]
  refine ⟨?_, hview, ?_, ?_⟩
  · show runTeardown
        (.dropViewIfExists "v_hitl_queue" :: downgradeStmts.drop 1) st = _
    rw [runTeardown_cons, hview _ st h1]
    show consTrace (TeardownStmt.dropViewIfExists "v_hitl_queue")
        (runTeardown (.dropViewIfExists "v_client_token_usage"
          :: downgradeStmts.drop 2) st) = _
    rw [runTeardown_cons, hview _ st h2]
    show consTrace (TeardownStmt.dropViewIfExists "v_hitl_queue")
        (consTrace (TeardownStmt.dropViewIfExists "v_client_token_usage")
          (runTeardown (.dropViewIfExists "v_active_processes"
            :: downgradeStmts.drop 3) st)) = _
    rw [runTeardown_cons, hview _ st h3]
    show consTrace (TeardownStmt.dropViewIfExists "v_hitl_queue")
        (consTrace (TeardownStmt.dropViewIfExists "v_client_token_usage")
          (consTrace (TeardownStmt.dropViewIfExists "v_active_processes")
            (runTeardown (.dropTable "notifications"
              :: downgradeStmts.drop 4) st))) = _
    rw [runTeardown_cons, execDrop_dropTable, if_neg (fun hc => h4 hc.1)]
    rfl
  · intro n st2 hn
    rw [execDrop_dropFunctionIfExists, List.erase_of_not_mem hn]
  · intro n st2 hn
    rw [execDrop_dropExtensionIfExists, List.erase_of_not_mem hn]

/-- C6 witness: on the empty catalog (the state a successful first
downgrade leaves behind), the second downgrade executes the three view
drops with no effect and fails at `DROP TABLE notifications`; the
guarded function and extension drops are no-ops on the empty catalog. -/
theorem C6_second_downgrade_fails_at_first_table_witness :
    runTeardown downgradeStmts ⟨[], [], [], [], []⟩
      = (⟨[], [], [], [], []⟩,
         [TeardownStmt.dropViewIfExists "v_hitl_queue",
          TeardownStmt.dropViewIfExists "v_client_token_usage",
          TeardownStmt.dropViewIfExists "v_active_processes",
          TeardownStmt.dropTable "notifications"], some ())
    ∧ execDrop (TeardownStmt.dropFunctionIfExists "update_updated_at_column")
        ⟨[], [], [], [], []⟩ = .ok ⟨[], [], [], [], []⟩
    ∧ execDrop (TeardownStmt.dropExtensionIfExists "uuid-ossp")
        ⟨[], [], [], [], []⟩ = .ok ⟨[], [], [], [], []⟩ := by
  have h := C6_second_downgrade_fails_at_first_table ⟨[], [], [], [], []⟩
    (by decide) (by decide) (by decide) (by decide)
  exact ⟨h.1, h.2.2.1 _ ⟨[], [], [], [], []⟩ (by decide),
    h.2.2.2 _ ⟨[], [], [], [], []⟩ (by decide)⟩
